import Mathlib

set_option maxRecDepth 8000

/-! Shallow embedding of the svg-preview core (SvgProcessor and JsonProcessor,
src/unnamed/part_003, src/unnamed/part_004, src/src/extension.ts).
JavaScript strings are modelled as `List Char`; string indices as `Nat`;
the `-1` sentinel of `lastIndexOf`/`indexOf` style searches as `Option Nat`. -/

/-- Test whether a character is one of the two JavaScript quote characters,
as in the source's checks `char === '"' || char === "'"`. -/
def quoteCh (c : Char) : Bool := c == '"' || c == '\''

/-- JavaScript `s.startsWith(pat)` on the list model. -/
def listStartsWith (s pat : List Char) : Bool := decide (s.take pat.length = pat)

/-- JavaScript `s.endsWith(pat)` on the list model. -/
def listEndsWith (s pat : List Char) : Bool := decide (s.drop (s.length - pat.length) = pat)

/-- JavaScript `String.prototype.trim`. -/
def trimL (s : List Char) : List Char :=
  ((s.dropWhile Char.isWhitespace).reverse.dropWhile Char.isWhitespace).reverse

/-- JavaScript `s.includes(pat)`: some position of `s` starts with `pat`. -/
def containsSub (s pat : List Char) : Bool :=
  (List.range (s.length + 1)).any fun i => listStartsWith (s.drop i) pat

/-- Index of the first occurrence of `pat` in `s` (JavaScript `s.indexOf(pat)`,
with `-1` rendered as `none`). -/
def indexOfL : List Char → List Char → Option Nat
  | [], pat => if pat.isEmpty then some 0 else none
  | s@(_ :: rest), pat =>
    if listStartsWith s pat then some 0
    else (indexOfL rest pat).map (· + 1)

/-- JavaScript `s.replace(pat, repl)` with a plain-string pattern: only the first
occurrence of `pat` is replaced by `repl`; if `pat` does not occur, `s` is returned. -/
def replaceFirstStr : List Char → List Char → List Char → List Char
  | [], pat, repl => if pat.isEmpty then repl else []
  | s@(c :: rest), pat, repl =>
    if listStartsWith s pat then repl ++ s.drop pat.length
    else c :: replaceFirstStr rest pat repl

/-- Result of `SvgProcessor.validateSvgStructure` (src/unnamed/part_003):
the `SvgValidationResult` record `isValid` flag together with the `error` string. -/
inductive SvgValidationResult where
  | valid : SvgValidationResult
  | invalid : String → SvgValidationResult
deriving DecidableEq

/-- The character-by-character balance scan of `validateSvgStructure`
(src/unnamed/part_003 lines 17-50): quote-aware depth counting.  On `<` the
source inspects `substring(i, i+2) === '</'` and decrements, returning the
unmatched-closing error as soon as depth goes negative; any other `<`
increments.  At end of input, nonzero depth reports unbalanced tags and an
open quote reports an unclosed quote. -/
def scanBalance : List Char → Int → Bool → Char → SvgValidationResult
  | [], depth, inQuote, _ =>
    if depth ≠ 0 then .invalid "Unbalanced tags detected"
    else if inQuote then .invalid "Unclosed quote detected"
    else .valid
  | c :: rest, depth, inQuote, quoteChar =>
    if inQuote then
      if c == quoteChar then scanBalance rest depth false quoteChar
      else scanBalance rest depth true quoteChar
    else if quoteCh c then scanBalance rest depth true c
    else if c == '<' then
      if rest.head? == some '/' then
        if depth - 1 < 0 then .invalid "Unmatched closing tag found"
        else scanBalance rest (depth - 1) false quoteChar
      else scanBalance rest (depth + 1) false quoteChar
    else scanBalance rest depth inQuote quoteChar

/-- `SvgProcessor.validateSvgStructure` (src/unnamed/part_003 lines 8-53): the
trimmed text must start with `<svg` and end with `</svg>`, and the whole
(untrimmed) text must pass the quote-aware depth scan. -/
def validateSvgStructure (svgContent : List Char) : SvgValidationResult :=
  if !(listStartsWith (trimL svgContent) ("<svg".data))
      || !(listEndsWith (trimL svgContent) ("</svg>".data)) then
    .invalid "SVG must start with <svg and end with </svg>"
  else scanBalance svgContent 0 false ' '

/-- JavaScript `text.lastIndexOf(pat, offset)` (used by `findSvgTag` to search
backward for the nearest `<svg` opener): the largest index `i ≤ offset` at which
`pat` starts, `none` when there is none (the source's `-1`). -/
def lastIndexOfAux (s pat : List Char) : Nat → Option Nat
  | 0 => if listStartsWith s pat then some 0 else none
  | o + 1 =>
    if listStartsWith (s.drop (o + 1)) pat then some (o + 1)
    else lastIndexOfAux s pat o

/-- `SvgProcessor.findOpenTagEnd` (src/unnamed/part_003 lines 218-236): scan
forward from `startIndex` for the `>` ending the opening tag, quote-aware.
The list argument is the remaining text from the current index `i`. -/
def findOpenTagEnd : List Char → Nat → Bool → Char → Option Nat
  | [], _, _, _ => none
  | c :: rest, i, inQuote, quoteChar =>
    if inQuote then
      if c == quoteChar then findOpenTagEnd rest (i + 1) false quoteChar
      else findOpenTagEnd rest (i + 1) true quoteChar
    else if quoteCh c then findOpenTagEnd rest (i + 1) true c
    else if c == '>' then some i
    else findOpenTagEnd rest (i + 1) false quoteChar

/-- `SvgProcessor.findCloseTag` (src/unnamed/part_003 lines 238-264): scan
forward with a nesting depth starting at 1; `<svg` (4 chars consumed)
increments, `</svg>` (6 chars consumed) decrements and returns the current
index when the depth reaches 0; all checks are skipped inside quotes.
The source tests the quote characters before the `<svg`/`</svg>` substring
tests; since `<` is not a quote character the pattern order below is
equivalent. -/
def findCloseTag : List Char → Nat → Int → Bool → Char → Option Nat
  | [], _, _, _, _ => none
  | c :: rest, i, depth, true, quoteChar =>
    if c == quoteChar then findCloseTag rest (i + 1) depth false quoteChar
    else findCloseTag rest (i + 1) depth true quoteChar
  | '<' :: 's' :: 'v' :: 'g' :: rest2, i, depth, false, quoteChar =>
    findCloseTag rest2 (i + 4) (depth + 1) false quoteChar
  | '<' :: '/' :: 's' :: 'v' :: 'g' :: '>' :: rest2, i, depth, false, quoteChar =>
    if depth - 1 = 0 then some i
    else findCloseTag rest2 (i + 6) (depth - 1) false quoteChar
  | c :: rest, i, depth, false, quoteChar =>
    if quoteCh c then findCloseTag rest (i + 1) depth true c
    else findCloseTag rest (i + 1) depth false quoteChar

/-- `SvgProcessor.findSvgTag` (src/unnamed/part_003 lines 192-216), the spec's
`locate`: backward search for the nearest `<svg` opener at or before `offset`,
then the end of that opening tag, then the matching `</svg>`.  Returns the span
`(openTagIndex, closeTagIndex + 6)` of the located fragment, `none` when any of
the three searches fails. -/
def findSvgTag (text : List Char) (offset : Nat) : Option (Nat × Nat) :=
  match lastIndexOfAux text ("<svg".data) offset with
  | none => none
  | some openTagIndex =>
    match findOpenTagEnd (text.drop (openTagIndex + 4)) (openTagIndex + 4) false ' ' with
    | none => none
    | some openTagEnd =>
      match findCloseTag (text.drop (openTagEnd + 1)) (openTagEnd + 1) 1 false ' ' with
      | none => none
      | some closeTagIndex => some (openTagIndex, closeTagIndex + 6)

/-- The nested-fragment text of the spec's TagLocator property:
outer opener at indices 0-4, inner opener at 5-9, inner closer at 10-15,
outer closer at 16-21. -/
def nestedSvgText : List Char := "<svg><svg></svg></svg>".data

/-- Matcher for the attribute regexes `name=["']([^"']+)["']` used by the source
(`id=`, `viewBox=`, `width=`, `height=`): at the current position, the literal
`name=`, either quote character, a nonempty run of non-quote characters
(the capture), and either quote character again.  Returns the match length and
the capture. -/
def attrPatAt (name : List Char) (s : List Char) : Option (Nat × List Char) :=
  if listStartsWith s (name ++ ("=".data)) then
    match s.drop (name.length + 1) with
    | [] => none
    | q :: s2 =>
      if quoteCh q then
        let cap := s2.takeWhile (fun c => !(quoteCh c))
        if cap.isEmpty then none
        else
          match s2.drop cap.length with
          | [] => none
          | q2 :: _ =>
            if quoteCh q2 then some (name.length + 1 + 1 + cap.length + 1, cap)
            else none
      else none
  else none

/-- Head-of-list quote test: the next character exists and is a quote. -/
def quoteHead (l : List Char) : Bool :=
  match l.head? with
  | some q => quoteCh q
  | none => false

/-- The capture `([^)]+)` of a reference match at a candidate position: the run
of non-`)` characters starting right after `refType=` (`ref.length + 1`
characters), the quote, and the literal `url(#` (five characters). -/
def refCapture (ref s : List Char) : List Char :=
  (s.drop (ref.length + 7)).takeWhile (fun c => c != ')')

/-- Matcher for the reference regexes `refType=["']url\\(#([^)]+)\\)["']` built in
`processReferences` (src/unnamed/part_003 line 139), by absolute offsets from
the candidate position: the literal `refType=` (indices `0..ref.length`),
either quote (index `ref.length + 1`), the literal `url(#`, the captured id as
the nonempty run of non-`)` characters from index `ref.length + 7`, the `)`
right after it, and either quote after that.  Returns the match length
`ref.length + 9 + capture.length` and the capture. -/
def refMatchAt (ref : List Char) (s : List Char) : Option (Nat × List Char) :=
  if listStartsWith s (ref ++ ("=".data))
      && quoteHead (s.drop (ref.length + 1))
      && listStartsWith (s.drop (ref.length + 2)) ("url(#".data)
      && !(refCapture ref s).isEmpty
      && ((s.drop (ref.length + 7 + (refCapture ref s).length)).head? == some ')')
      && quoteHead (s.drop (ref.length + 8 + (refCapture ref s).length)) then
    some (ref.length + 1 + 1 + 5 + (refCapture ref s).length + 1 + 1, refCapture ref s)
  else none

/-- First match of a position matcher `p` at a position `≥ pos`, scanning left to
right exactly as a JavaScript regex search does; returns the match position,
length and capture. -/
def scanFind (p : List Char → Option (Nat × List Char)) : List Char → Nat → Option (Nat × Nat × List Char)
  | [], _ => none
  | c :: rest, pos =>
    match p (c :: rest) with
    | some (len, cap) => some (pos, len, cap)
    | none => scanFind p rest (pos + 1)

/-- One `exec` step of a global regex whose `lastIndex` is `li`: the first match
of the pattern starting at a position `≥ li`. -/
def findRefFrom (ref s : List Char) (li : Nat) : Option (Nat × Nat × List Char) :=
  scanFind (refMatchAt ref) (s.drop li) li

/-- The id-collection loop of `processReferences` (src/unnamed/part_003 lines
131-135): repeated global `exec` of `id=["']([^"']+)["']` over a fixed string,
each match resuming at the match's end.  `skip` counts characters still to
consume from the previous match. -/
def collectIdsAux : List Char → Nat → List (List Char)
  | [], _ => []
  | _ :: rest, skip + 1 => collectIdsAux rest skip
  | c :: rest, 0 =>
    match attrPatAt ("id".data) (c :: rest) with
    | some (len, cap) => cap :: collectIdsAux rest (len - 1)
    | none => collectIdsAux rest 0

/-- All captured `id` values of the fragment, in match order (the source's
`definedIds` set). -/
def collectIds (s : List Char) : List (List Char) := collectIdsAux s 0

/-- The reference-validation loop of `processReferences` (src/unnamed/part_003
lines 138-148), including its JavaScript operational subtlety: the regex object's
`lastIndex` persists while `svgContent` is reassigned inside the loop, so after a
removal the next `exec` continues from the old end-of-match index over the new,
shorter string.  A dangling reference is removed by `svgContent.replace(fullRef,
'')`, i.e. the first occurrence of the matched text is deleted.  The `fuel`
argument bounds the number of iterations; `content.length + 1` is always enough
(each iteration strictly increases `lastIndex`, which a successful match bounds
by the current length) — this is proved in the termination theorem for the
normalizer. -/
def refLoopFuel (ref : List Char) (dIds : List (List Char)) : Nat → List Char → Nat → List Char
  | 0, s, _ => s
  | fuel + 1, s, lastIndex =>
    match findRefFrom ref s lastIndex with
    | none => s
    | some (mpos, len, cap) =>
      if cap ∈ dIds then refLoopFuel ref dIds fuel s (mpos + len)
      else refLoopFuel ref dIds fuel (replaceFirstStr s ((s.drop mpos).take len) []) (mpos + len)

/-- The closed list of reference-bearing attribute kinds pruned by
`processReferences` (src/unnamed/part_003 line 127).  Note `fill` is not in it. -/
def refTypes : List (List Char) :=
  ["filter".data, "clip-path".data, "mask".data, "pattern".data,
   "linearGradient".data, "radialGradient".data]

/-- `SvgProcessor.processReferences` (src/unnamed/part_003 lines 126-151):
collect all defined ids once, then for each reference kind run the exec loop
that deletes references to undefined ids. -/
def processReferences (svgContent : List Char) : List Char :=
  let definedIds := collectIds svgContent
  refTypes.foldl (fun content ref => refLoopFuel ref definedIds (content.length + 1) content 0)
    svgContent

/-- `SvgProcessor.addRequiredNamespaces` (src/unnamed/part_003 lines 83-91):
inject the default namespace when `xmlns=` is absent, then the xlink namespace
when `xlink:` is used but `xmlns:xlink=` is absent; each injection replaces the
first occurrence of `<svg`. -/
def addRequiredNamespaces (svgContent : List Char) : List Char :=
  let s1 :=
    if !(containsSub svgContent ("xmlns=".data)) then
      replaceFirstStr svgContent ("<svg".data)
        ("<svg xmlns=\"http://www.w3.org/2000/svg\"".data)
    else svgContent
  if containsSub s1 ("xlink:".data) && !(containsSub s1 ("xmlns:xlink=".data)) then
    replaceFirstStr s1 ("<svg".data)
      ("<svg xmlns:xlink=\"http://www.w3.org/1999/xlink\"".data)
  else s1

/-- The `width[1].replace(/[^\d.]/g, '')` numeric stripping of
`handleDimensions`: keep only digits and dots. -/
def stripNonDigits (s : List Char) : List Char := s.filter (fun c => c.isDigit || c == '.')

/-- `SvgProcessor.handleDimensions` (src/unnamed/part_003 lines 96-121): first
matches of the `viewBox`/`width`/`height` attribute regexes anywhere in the
fragment (all three on the incoming string); if no `viewBox`, synthesize one
from the numeric-stripped width/height captures when both exist, else insert
the default `0 0 300 200`; then insert default `width`/`height` for whichever
of the two is missing. -/
def handleDimensions (svgContent : List Char) : List Char :=
  let viewBox := scanFind (attrPatAt ("viewBox".data)) svgContent 0
  let width := scanFind (attrPatAt ("width".data)) svgContent 0
  let height := scanFind (attrPatAt ("height".data)) svgContent 0
  let s1 :=
    match viewBox with
    | some _ => svgContent
    | none =>
      match width, height with
      | some (_, _, wcap), some (_, _, hcap) =>
        replaceFirstStr svgContent ("<svg".data)
          (("<svg viewBox=\"0 0 ".data) ++ stripNonDigits wcap ++ (" ".data)
            ++ stripNonDigits hcap ++ ("\"".data))
      | _, _ =>
        replaceFirstStr svgContent ("<svg".data) ("<svg viewBox=\"0 0 300 200\"".data)
  let s2 :=
    match width with
    | none => replaceFirstStr s1 ("<svg".data) ("<svg width=\"300\"".data)
    | some _ => s1
  match height with
  | none => replaceFirstStr s2 ("<svg".data) ("<svg height=\"200\"".data)
  | some _ => s2

/-- Matcher for one comment of the comment-stripping regex
`<!--(?!>)[\s\S]*?-->` (src/unnamed/part_003 line 60): the literal `<!--`, a
negative lookahead refusing an immediate `>`, then lazily up to the first
`-->`.  Returns the match length. -/
def commentAt (s : List Char) : Option Nat :=
  if listStartsWith s ("<!--".data) then
    if (s.drop 4).head? == some '>' then none
    else
      match indexOfL (s.drop 4) ("-->".data) with
      | none => none
      | some q => some (4 + q + 3)
  else none

/-- Global replace of the comment regex by the empty string: scan left to right,
delete each match, resume after it (`skip` counts characters of the current
match still to discard). -/
def stripCommentsAux : List Char → Nat → List Char
  | [], _ => []
  | _ :: rest, skip + 1 => stripCommentsAux rest skip
  | c :: rest, 0 =>
    match commentAt (c :: rest) with
    | some len => stripCommentsAux rest (len - 1)
    | none => c :: stripCommentsAux rest 0

/-- The comment-stripping step of `cleanSvgContent` (src/unnamed/part_003
line 60). -/
def stripComments (s : List Char) : List Char := stripCommentsAux s 0

/-- Matcher for the nested-svg regex `(<svg[^>]*>)([\s\S]*?)(<\/svg>)`
(src/unnamed/part_003 line 179): the opening tag runs to the first `>`, the
content lazily to the first `</svg>`.  Returns the match length, the opening
tag and the content (the closing tag is the literal `</svg>`). -/
def nestedSvgAt (s : List Char) : Option (Nat × List Char × List Char) :=
  if listStartsWith s ("<svg".data) then
    let attrs := (s.drop 4).takeWhile (fun c => c != '>')
    match (s.drop 4).drop attrs.length with
    | [] => none
    | _ :: afterGt =>
      match indexOfL afterGt ("</svg>".data) with
      | none => none
      | some q =>
        some (4 + attrs.length + 1 + q + 6,
          ("<svg".data) ++ attrs ++ ['>'], afterGt.take q)
  else none

/-- The replacement callback of `handleNestedSvgs` (src/unnamed/part_003 lines
180-184): inject the default namespace into the matched opening tag when
absent, then reassemble openTag + content + closeTag. -/
def nestedSvgReplacement (openTag content : List Char) : List Char :=
  (if !(containsSub openTag ("xmlns=".data)) then
    replaceFirstStr openTag ("<svg".data) ("<svg xmlns=\"http://www.w3.org/2000/svg\"".data)
  else openTag) ++ content ++ ("</svg>".data)

/-- Global replace of the nested-svg regex with the namespace-injecting
callback. -/
def handleNestedSvgsAux : List Char → Nat → List Char
  | [], _ => []
  | _ :: rest, skip + 1 => handleNestedSvgsAux rest skip
  | c :: rest, 0 =>
    match nestedSvgAt (c :: rest) with
    | some (len, openTag, content) =>
      nestedSvgReplacement openTag content ++ handleNestedSvgsAux rest (len - 1)
    | none => c :: handleNestedSvgsAux rest 0

/-- `SvgProcessor.handleNestedSvgs` (src/unnamed/part_003 lines 177-187). -/
def handleNestedSvgs (s : List Char) : List Char := handleNestedSvgsAux s 0

/-- Matcher for the image regex `<image[^>]+xlink:href=["']([^"']+)["'][^>]*>`
(src/unnamed/part_003 line 158), exact for matches whose attribute values
contain no `>`: the literal `<image`, then within the nonempty run of
non-`>` characters an `xlink:href=` quoted value at offset ≥ 1 (the greedy
`[^>]+` selects the last candidate), then the terminating `>`.  Returns the
match length and the captured href. -/
def hrefAtIdx (run : List Char) (i : Nat) : Option (List Char) :=
  if listStartsWith (run.drop i) ("xlink:href=".data) then
    match (run.drop i).drop 11 with
    | [] => none
    | q :: t2 =>
      if quoteCh q then
        let cap := t2.takeWhile (fun c => !(quoteCh c))
        if cap.isEmpty then none
        else
          match t2.drop cap.length with
          | [] => none
          | q2 :: _ => if quoteCh q2 then some cap else none
      else none
  else none

/-- Descending search for the last parseable `xlink:href=` occurrence at an
offset ≥ 1 inside the non-`>` run of an `<image` tag. -/
def hrefDesc (run : List Char) : Nat → Option (List Char)
  | 0 => none
  | i + 1 =>
    match hrefAtIdx run (i + 1) with
    | some cap => some cap
    | none => hrefDesc run i

/-- See `hrefAtIdx`. -/
def imageAt (s : List Char) : Option (Nat × List Char) :=
  if listStartsWith s ("<image".data) then
    let run := (s.drop 6).takeWhile (fun c => c != '>')
    if run.isEmpty then none
    else
      match (s.drop 6).drop run.length with
      | [] => none
      | _ :: _ =>
        match hrefDesc run run.length with
        | none => none
        | some href => some (6 + run.length + 1, href)
  else none

/-- `SvgProcessor.handleImageReferences` (src/unnamed/part_003 lines 156-172).
The callback keeps a `data:` href's match unchanged; otherwise it rewrites the
href through the host's `vscode.Uri.parse(..).toString()` and keeps the match
on any parse failure.  The host URI round-trip is outside this repository and
is modelled as the identity (per the spec's step 5: best-effort resolution
that degrades to a no-op), so both branches return the matched text
unchanged. -/
def handleImageReferencesAux : List Char → Nat → List Char
  | [], _ => []
  | _ :: rest, skip + 1 => handleImageReferencesAux rest skip
  | c :: rest, 0 =>
    match imageAt (c :: rest) with
    | some (len, href) =>
      (if listStartsWith href ("data:".data) then (c :: rest).take len
       else (c :: rest).take len)
        ++ handleImageReferencesAux rest (len - 1)
    | none => c :: handleImageReferencesAux rest 0

/-- See `handleImageReferencesAux`. -/
def handleImageReferences (s : List Char) : List Char := handleImageReferencesAux s 0

/-- `SvgProcessor.cleanSvgContent` (src/unnamed/part_003 lines 58-78), the
spec's `normalize`: strip comments, add required namespaces, handle dimensions
and viewBox, process references and ids, handle image references, handle
nested svg elements. -/
def cleanSvgContent (svgContent : List Char) : List Char :=
  handleNestedSvgs
    (handleImageReferences
      (processReferences
        (handleDimensions
          (addRequiredNamespaces
            (stripComments svgContent)))))

/-- `JsonProcessor.validateSvgReference`'s single-segment filename regex
`^[\w\-\.]+\.svg$` (src/unnamed/part_004 line 28): the whole token is word
characters, dashes or dots, and ends in `.svg` with a nonempty stem. -/
def singleSegSvg (w : List Char) : Bool :=
  listEndsWith w (".svg".data) &&
    (let stem := w.take (w.length - 4)
     !stem.isEmpty && stem.all (fun c => c.isAlphanum || c == '_' || c == '-' || c == '.'))

/-- The file-reference record produced for a recognized token (the source's
`{ filePath, range }`, the editor range being presentation-layer data). -/
structure SvgFileReference where
  filePath : List Char

/-- `JsonProcessor.validateSvgReference` (src/unnamed/part_004 lines 23-36),
the spec's `is_file_reference`: `null` unless the word ends with `.svg`; then a
reference iff it contains `/` or `\` or matches the single-segment filename
pattern. -/
def validateSvgReference (word : List Char) : Option SvgFileReference :=
  if !(listEndsWith word (".svg".data)) then none
  else if word.contains '/' || word.contains '\\' || singleSegSvg word then
    some ⟨word⟩
  else none

/-- C2 counterexample: on the exact string `<svg><rect></svg>` the validator does
not return the unmatched-closing-tag reason — the closing root tag only brings the
depth from 2 down to 1, which is not negative, so the scan instead ends with
depth 1. -/
theorem unclosed_rect_not_unmatched_closing :
    validateSvgStructure ("<svg><rect></svg>".data) ≠
      SvgValidationResult.invalid "Unmatched closing tag found" := by
  decide

/-- C2 (amended): `validate("<svg><rect></svg>")` returns `Invalid` with reason
`UnbalancedDepth` (source string "Unbalanced tags detected"): `<svg` and `<rect`
push the depth to 2, the closing `</svg>` lowers it to 1, the depth never goes
negative, and the scan ends at depth 1 ≠ 0. -/
theorem unclosed_rect_yields_unbalanced :
    validateSvgStructure ("<svg><rect></svg>".data) =
      SvgValidationResult.invalid "Unbalanced tags detected" := by
  decide

/-- C9 counterexample: not every fragment containing a self-closing tag is
rejected. `<svg><rect/></rect></svg>` contains the self-closing `<rect/>`
(outside any quotes), yet a surplus `</rect>` closing tag rebalances the
depth count, so the validator accepts it. -/
theorem self_closing_with_extra_close_valid :
    validateSvgStructure ("<svg><rect/></rect></svg>".data) =
      SvgValidationResult.valid := by
  decide

/-- C9 (amended): the scan increments depth at the `<` of a self-closing tag and
nothing ever decrements for the `/>`; hence `<svg><rect/></svg>` ends the scan at
depth 1 and is rejected as unbalanced, even though it is well-formed markup.
(The rejection is not universal over all fragments containing a self-closing tag:
surplus closing tags can rebalance the count, see the counterexample.) -/
theorem self_closing_rect_unbalanced :
    validateSvgStructure ("<svg><rect/></svg>".data) =
      SvgValidationResult.invalid "Unbalanced tags detected" := by
  decide

/-- The backward search finds `none` exactly when no index at or before `o`
starts the pattern. -/
theorem lastIndexOfAux_none_iff (s pat : List Char) (o : Nat) :
    lastIndexOfAux s pat o = none ↔
      ∀ i, i ≤ o → listStartsWith (s.drop i) pat = false := by
  induction o with
  | zero =>
    constructor
    · intro h i hi
      obtain rfl : i = 0 := Nat.le_zero.mp hi
      cases hs : listStartsWith (s.drop 0) pat
      · rfl
      · rw [List.drop_zero] at hs
        simp [lastIndexOfAux, hs] at h
    · intro h
      have h0 := h 0 (Nat.le_refl 0)
      rw [List.drop_zero] at h0
      simp [lastIndexOfAux, h0]
  | succ o ih =>
    cases hs : listStartsWith (s.drop (o + 1)) pat
    · simp only [lastIndexOfAux, hs, Bool.false_eq_true, if_false]
      rw [ih]
      constructor
      · intro h i hi
        rcases (by omega : i ≤ o ∨ i = o + 1) with h1 | h1
        · exact h i h1
        · rw [h1]; exact hs
      · intro h i hi
        exact h i (by omega)
    · simp only [lastIndexOfAux, hs, if_true]
      constructor
      · intro h; cases h
      · intro h
        have := h (o + 1) (Nat.le_refl _)
        rw [hs] at this
        cases this

/-- C3 counterexample: at offset 5 — the boundary between the outer opening tag
(indices 0-4) and the inner opening tag (starting at index 5), the only offset
lying between the two opening tags — `findSvgTag` returns the inner span
`(5, 16)`, not the full outer span `(0, 22)` the claim asserts: the backward
`lastIndexOf` search counts an opener starting exactly at the offset. -/
theorem locate_boundary_returns_inner :
    findSvgTag nestedSvgText 5 = some (5, 16) ∧
      findSvgTag nestedSvgText 5 ≠ some (0, 22) := by
  decide

/-- C3 (amended): on `<svg><svg></svg></svg>`, `locate` at every offset inside
the inner element (5 through 15) returns exactly the inner `<svg></svg>` span
`(5, 16)`; at every offset within the outer opening tag (0 through 4) it
returns the full outer span `(0, 22)`.  At the boundary offset 5 the inner
span is returned, because the backward search treats an opener starting
exactly at the offset as preceding it. -/
theorem nested_svg_locate_spans :
    (∀ o ∈ Finset.Icc 5 15, findSvgTag nestedSvgText o = some (5, 16))
    ∧ (∀ o ∈ Finset.Icc 0 4, findSvgTag nestedSvgText o = some (0, 22)) := by
  decide

/-- C3 witness: the amended theorem applied at the concrete offsets 7 and 3. -/
theorem nested_svg_locate_spans_witness :
    findSvgTag nestedSvgText 7 = some (5, 16) ∧
      findSvgTag nestedSvgText 3 = some (0, 22) :=
  ⟨nested_svg_locate_spans.1 7 (by decide), nested_svg_locate_spans.2 3 (by decide)⟩

/-- C6: `findSvgTag` (`locate`) returns `none` in exactly three situations —
no `<svg` opening token starts at or before the offset, the found opening tag's
`>` never arrives (quote-aware scan runs off the end), or the nesting depth
never returns to 0 before the input ends; and in particular whenever no `<svg`
token starts at or before the offset, the result is the absence value `none`
rather than an error. -/
theorem locate_none_characterization (text : List Char) (offset : Nat) :
    ((∀ i, i ≤ offset → listStartsWith (text.drop i) ("<svg".data) = false) →
      findSvgTag text offset = none)
    ∧ (findSvgTag text offset = none ↔
        (∀ i, i ≤ offset → listStartsWith (text.drop i) ("<svg".data) = false)
        ∨ (∃ t, lastIndexOfAux text ("<svg".data) offset = some t ∧
            findOpenTagEnd (text.drop (t + 4)) (t + 4) false ' ' = none)
        ∨ (∃ t e, lastIndexOfAux text ("<svg".data) offset = some t ∧
            findOpenTagEnd (text.drop (t + 4)) (t + 4) false ' ' = some e ∧
            findCloseTag (text.drop (e + 1)) (e + 1) 1 false ' ' = none)) := by
  have hiff : findSvgTag text offset = none ↔
      (∀ i, i ≤ offset → listStartsWith (text.drop i) ("<svg".data) = false)
      ∨ (∃ t, lastIndexOfAux text ("<svg".data) offset = some t ∧
          findOpenTagEnd (text.drop (t + 4)) (t + 4) false ' ' = none)
      ∨ (∃ t e, lastIndexOfAux text ("<svg".data) offset = some t ∧
          findOpenTagEnd (text.drop (t + 4)) (t + 4) false ' ' = some e ∧
          findCloseTag (text.drop (e + 1)) (e + 1) 1 false ' ' = none) := by
    constructor
    · intro h
      cases h1 : lastIndexOfAux text ("<svg".data) offset with
      | none => exact Or.inl ((lastIndexOfAux_none_iff _ _ _).mp h1)
      | some t =>
        cases h2 : findOpenTagEnd (text.drop (t + 4)) (t + 4) false ' ' with
        | none => exact Or.inr (Or.inl ⟨t, rfl, h2⟩)
        | some e =>
          cases h3 : findCloseTag (text.drop (e + 1)) (e + 1) 1 false ' ' with
          | none => exact Or.inr (Or.inr ⟨t, e, rfl, h2, h3⟩)
          | some cl => simp [findSvgTag, h1, h2, h3] at h
    · intro h
      rcases h with hA | ⟨t, h1, h2⟩ | ⟨t, e, h1, h2, h3⟩
      · have h1 := (lastIndexOfAux_none_iff text ("<svg".data) offset).mpr hA
        simp [findSvgTag, h1]
      · simp [findSvgTag, h1, h2]
      · simp [findSvgTag, h1, h2, h3]
  exact ⟨fun hA => hiff.mpr (Or.inl hA), hiff⟩

/-- C6 witness: on text containing no `<svg` token at all, `locate` returns
absence; the hypothesis is discharged by `decide` at the concrete input. -/
theorem locate_none_characterization_witness :
    findSvgTag ("hello world".data) 7 = none :=
  (locate_none_characterization ("hello world".data) 7).1 (by decide)

/-- A successful prefix test bounds the pattern length by the string length. -/
theorem listStartsWith_length {s pat : List Char} (h : listStartsWith s pat = true) :
    pat.length ≤ s.length := by
  simp only [listStartsWith, decide_eq_true_eq] at h
  have hl := congrArg List.length h
  simp only [List.length_take] at hl
  omega

/-- A successful `quoteHead` means the list is nonempty. -/
theorem quoteHead_pos {l : List Char} (h : quoteHead l = true) : 1 ≤ l.length := by
  cases l with
  | nil => simp [quoteHead] at h
  | cons a t => simp [List.length_cons]

/-- A successful reference match has positive length bounded by the scanned
remainder. -/
theorem refMatchAt_bounds {ref s : List Char} {len : Nat} {cap : List Char}
    (h : refMatchAt ref s = some (len, cap)) : 1 ≤ len ∧ len ≤ s.length := by
  unfold refMatchAt at h
  split at h
  · rename_i hc
    simp only [Bool.and_eq_true] at hc
    have c6 := hc.2
    have hinj := h
    simp only [Option.some.injEq, Prod.mk.injEq] at hinj
    obtain ⟨hlen, hcap⟩ := hinj
    have h6 := quoteHead_pos c6
    rw [List.length_drop] at h6
    omega
  · exact absurd h (by simp)

/-- A match found by the left-to-right scan lies at or after the start
position, has positive length, and fits inside the scanned remainder. -/
theorem scanFind_bounds (p : List Char → Option (Nat × List Char))
    (hp : ∀ r l c, p r = some (l, c) → 1 ≤ l ∧ l ≤ r.length) :
    ∀ (rem : List Char) (pos m len : Nat) (cap : List Char),
      scanFind p rem pos = some (m, len, cap) →
      pos ≤ m ∧ 1 ≤ len ∧ m + len ≤ pos + rem.length := by
  intro rem
  induction rem with
  | nil => intro pos m len cap h; simp [scanFind] at h
  | cons c rest ih =>
    intro pos m len cap h
    rw [scanFind] at h
    cases hm : p (c :: rest) with
    | some v =>
      rw [hm] at h
      obtain ⟨l, cp⟩ := v
      simp only [Option.some.injEq, Prod.mk.injEq] at h
      obtain ⟨h1, h2, h3⟩ := h
      subst h1; subst h2; subst h3
      have hb := hp _ _ _ hm
      simp only [List.length_cons] at hb ⊢
      omega
    | none =>
      rw [hm] at h
      have hb := ih (pos + 1) m len cap h
      simp only [List.length_cons]
      omega

/-- One `exec` step from `lastIndex = li`: any match starts at or after `li`,
is nonempty, and ends within the string. -/
theorem findRefFrom_bounds (ref s : List Char) (li m len : Nat) (cap : List Char)
    (h : findRefFrom ref s li = some (m, len, cap)) :
    li ≤ m ∧ 1 ≤ len ∧ m + len ≤ s.length := by
  unfold findRefFrom at h
  have hb := scanFind_bounds (refMatchAt ref)
    (fun r l c hh => refMatchAt_bounds hh) (s.drop li) li m len cap h
  have hle : li ≤ s.length := by
    by_contra hgt
    push_neg at hgt
    have hnil : s.drop li = [] := List.drop_eq_nil_of_le (by omega)
    rw [hnil] at h
    simp [scanFind] at h
  rw [List.length_drop] at hb
  omega

/-- Deleting the first occurrence of a nonempty pattern that does occur in the
string shortens it by exactly the pattern length (stated for a general
replacement string). -/
theorem replaceFirstStr_length (pat repl : List Char) (hpat : pat ≠ []) :
    ∀ (s : List Char) (i : Nat), listStartsWith (s.drop i) pat = true →
      (replaceFirstStr s pat repl).length + pat.length = s.length + repl.length := by
  intro s
  induction s with
  | nil =>
    intro i h
    rw [List.drop_nil] at h
    have := listStartsWith_length h
    have hz : pat.length = 0 := by simpa using this
    exact absurd (List.length_eq_zero.mp hz) hpat
  | cons c rest ih =>
    intro i h
    by_cases hsw : listStartsWith (c :: rest) pat = true
    · have hred : replaceFirstStr (c :: rest) pat repl = repl ++ (c :: rest).drop pat.length := by
        simp [replaceFirstStr, hsw]
      rw [hred]
      have hlen := listStartsWith_length hsw
      simp only [List.length_append, List.length_drop, List.length_cons] at hlen ⊢
      omega
    · have hred : replaceFirstStr (c :: rest) pat repl = c :: replaceFirstStr rest pat repl := by
        simp [replaceFirstStr, hsw]
      rw [hred]
      cases i with
      | zero => rw [List.drop_zero] at h; exact absurd h hsw
      | succ j =>
        rw [List.drop_succ_cons] at h
        have := ih j h
        simp only [List.length_cons]
        omega

/-- Fuel absorption for the reference-pruning loop: once the fuel covers the
remaining scan distance `s.length + 1 - li`, adding more fuel does not change
the result — i.e. the loop that re-runs the regex over the mutating string
always terminates within a length-bounded number of iterations. -/
theorem refLoopFuel_absorb (ref : List Char) (dIds : List (List Char)) :
    ∀ (fuel : Nat) (s : List Char) (li : Nat), s.length + 1 ≤ fuel + li →
      refLoopFuel ref dIds (fuel + 1) s li = refLoopFuel ref dIds fuel s li := by
  intro fuel
  induction fuel with
  | zero =>
    intro s li hb
    have hnil : s.drop li = [] := List.drop_eq_nil_of_le (by omega)
    have hfind : findRefFrom ref s li = none := by
      unfold findRefFrom
      rw [hnil]
      simp [scanFind]
    simp [refLoopFuel, hfind]
  | succ f ih =>
    intro s li hb
    cases hfind : findRefFrom ref s li with
    | none => simp [refLoopFuel, hfind]
    | some v =>
      obtain ⟨m, len, cap⟩ := v
      have hbnd := findRefFrom_bounds ref s li m len cap hfind
      simp only [refLoopFuel, hfind]
      by_cases hc : cap ∈ dIds
      · simp only [hc, if_true]
        exact ih s (m + len) (by omega)
      · simp only [hc, if_false]
        have hlenle : len ≤ (s.drop m).length := by
          rw [List.length_drop]; omega
        have hocc : listStartsWith (s.drop m) ((s.drop m).take len) = true := by
          simp only [listStartsWith, decide_eq_true_eq]
          rw [List.length_take, Nat.min_eq_left hlenle]
        have hfl : ((s.drop m).take len).length = len := by
          rw [List.length_take, Nat.min_eq_left hlenle]
        have hne : (s.drop m).take len ≠ [] := by
          intro hnil
          rw [hnil] at hfl
          simp at hfl
          omega
        have hrep := replaceFirstStr_length ((s.drop m).take len) [] hne s m hocc
        rw [hfl] at hrep
        simp only [List.length_nil, Nat.add_zero] at hrep
        exact ih _ (m + len) (by omega)

/-- C8: `normalize` (`cleanSvgContent`) is total — it is defined on every input
string.  The only loop whose termination is not an immediate structural
descent, the reference-pruning `exec` loop that mutates the string while
re-running the regex, terminates within a length-bounded number of iterations:
its result is unchanged once the fuel covers `s.length + 1 - lastIndex`
(third conjunct), and textual absence of the pattern makes it a no-op rather
than a failure (second conjunct). -/
theorem normalize_total :
    (∀ s : List Char, ∃ t, cleanSvgContent s = t)
    ∧ (∀ (ref : List Char) (dIds : List (List Char)) (fuel : Nat) (s : List Char) (li : Nat),
        findRefFrom ref s li = none → refLoopFuel ref dIds (fuel + 1) s li = s)
    ∧ (∀ (ref : List Char) (dIds : List (List Char)) (fuel : Nat) (s : List Char) (li : Nat),
        s.length + 1 ≤ fuel + li →
        refLoopFuel ref dIds (fuel + 1) s li = refLoopFuel ref dIds fuel s li) := by
  refine ⟨fun s => ⟨cleanSvgContent s, rfl⟩, ?_, ?_⟩
  · intro ref dIds fuel s li hfind
    simp [refLoopFuel, hfind]
  · intro ref dIds fuel s li hb
    exact refLoopFuel_absorb ref dIds fuel s li hb

/-- C8 witness: the no-op and fuel-absorption statements applied at concrete
inputs, hypotheses discharged by `decide`. -/
theorem normalize_total_witness :
    refLoopFuel ("mask".data) [] 12 ("<svg></svg>".data) 0 = ("<svg></svg>".data)
    ∧ refLoopFuel ("mask".data) [] 13 ("<svg></svg>".data) 0 =
        refLoopFuel ("mask".data) [] 12 ("<svg></svg>".data) 0 :=
  ⟨normalize_total.2.1 ("mask".data) [] 11 ("<svg></svg>".data) 0 (by decide),
   normalize_total.2.2 ("mask".data) [] 12 ("<svg></svg>".data) 0 (by decide)⟩

/-- C1 counterexample: `normalize` on `<svg><rect fill="url(#missing)"/></svg>`
does not delete the `fill="url(#missing)"` attribute occurrence — the
normalized output still contains it, because `fill` is not among the pruned
reference kinds. -/
theorem fill_missing_not_deleted :
    containsSub (cleanSvgContent ("<svg><rect fill=\"url(#missing)\"/></svg>".data))
      ("fill=\"url(#missing)\"".data) = true := by
  decide

/-- C1 (amended): `fill` is not in the closed list of pruned reference-bearing
attribute kinds (`filter`, `clip-path`, `mask`, `pattern`, `linearGradient`,
`radialGradient`), so `normalize` leaves `fill="url(#missing)"` in place with
the `rect` element intact, and likewise leaves `fill="url(#g)"` unchanged in
the fragment where `g` is defined. -/
theorem fill_reference_survives_normalize :
    ("fill".data) ∉ refTypes
    ∧ containsSub (cleanSvgContent ("<svg><rect fill=\"url(#missing)\"/></svg>".data))
        ("<rect fill=\"url(#missing)\"/>".data) = true
    ∧ containsSub
        (cleanSvgContent
          ("<svg><defs><linearGradient id=\"g\"/></defs><rect fill=\"url(#g)\"/></svg>".data))
        ("<rect fill=\"url(#g)\"/>".data) = true := by
  decide

/-- C4: `normalize` is not idempotent on every structurally valid input.  On
the valid fragment `<svg><a mask="url(#m)"></a><b mask="url(#m)"></b></svg>`
the first pass removes only the first dangling `mask` reference: after the
in-place removal the regex's persistent `lastIndex` lies beyond the shifted
second occurrence, which is skipped; the leftover dangling reference (third
conjunct) is then removed by a second pass, so
`normalize (normalize x) ≠ normalize x`. -/
theorem normalize_not_idempotent_on_double_dangling :
    validateSvgStructure
        ("<svg><a mask=\"url(#m)\"></a><b mask=\"url(#m)\"></b></svg>".data) =
      SvgValidationResult.valid
    ∧ cleanSvgContent (cleanSvgContent
        ("<svg><a mask=\"url(#m)\"></a><b mask=\"url(#m)\"></b></svg>".data)) ≠
      cleanSvgContent ("<svg><a mask=\"url(#m)\"></a><b mask=\"url(#m)\"></b></svg>".data)
    ∧ containsSub
        (cleanSvgContent ("<svg><a mask=\"url(#m)\"></a><b mask=\"url(#m)\"></b></svg>".data))
        ("mask=\"url(#m)\"".data) = true := by
  decide

/-- C5: `normalize` on `<svg width="10" height="20"></svg>` yields exactly the
fragment with the synthesized `viewBox="0 0 10 20"` (from the numeric-stripped
width and height), the default SVG namespace attribute, and the original
`width="10"` and `height="20"` unchanged. -/
theorem normalize_synthesizes_viewbox_from_dimensions :
    cleanSvgContent ("<svg width=\"10\" height=\"20\"></svg>".data) =
      ("<svg viewBox=\"0 0 10 20\" xmlns=\"http://www.w3.org/2000/svg\" width=\"10\" height=\"20\"></svg>".data)
    ∧ containsSub (cleanSvgContent ("<svg width=\"10\" height=\"20\"></svg>".data))
        ("viewBox=\"0 0 10 20\"".data) = true
    ∧ containsSub (cleanSvgContent ("<svg width=\"10\" height=\"20\"></svg>".data))
        ("xmlns=\"http://www.w3.org/2000/svg\"".data) = true
    ∧ containsSub (cleanSvgContent ("<svg width=\"10\" height=\"20\"></svg>".data))
        ("width=\"10\"".data) = true
    ∧ containsSub (cleanSvgContent ("<svg width=\"10\" height=\"20\"></svg>".data))
        ("height=\"20\"".data) = true := by
  decide

/-- C10: the dimension lookup of `normalize` is fragment-global, not
root-scoped.  In general, whenever the `width` and `height` attribute regexes
match anywhere in the fragment and `viewBox` matches nowhere,
`handleDimensions` only inserts a `viewBox` synthesized from those captures
and injects no `width` or `height` onto the root.  Concretely,
`<svg><rect width="5" height="5"/></svg>` gains `viewBox="0 0 5 5"` from the
rect's attributes, and the root opening tag of the output carries no `width=`
or `height=`. -/
theorem dimension_lookup_fragment_global :
    (∀ (s wcap hcap : List Char) (wpos wlen hpos hlen : Nat),
        scanFind (attrPatAt ("viewBox".data)) s 0 = none →
        scanFind (attrPatAt ("width".data)) s 0 = some (wpos, wlen, wcap) →
        scanFind (attrPatAt ("height".data)) s 0 = some (hpos, hlen, hcap) →
        handleDimensions s =
          replaceFirstStr s ("<svg".data)
            (("<svg viewBox=\"0 0 ".data) ++ stripNonDigits wcap ++ (" ".data)
              ++ stripNonDigits hcap ++ ("\"".data)))
    ∧ cleanSvgContent ("<svg><rect width=\"5\" height=\"5\"/></svg>".data) =
        ("<svg viewBox=\"0 0 5 5\" xmlns=\"http://www.w3.org/2000/svg\"><rect width=\"5\" height=\"5\"/></svg>".data)
    ∧ containsSub
        ((cleanSvgContent ("<svg><rect width=\"5\" height=\"5\"/></svg>".data)).takeWhile
          (fun c => c != '>'))
        ("width=".data) = false
    ∧ containsSub
        ((cleanSvgContent ("<svg><rect width=\"5\" height=\"5\"/></svg>".data)).takeWhile
          (fun c => c != '>'))
        ("height=".data) = false := by
  refine ⟨?_, by decide, by decide, by decide⟩
  intro s wcap hcap wpos wlen hpos hlen hv hw hh
  simp only [handleDimensions, hv, hw, hh]

/-- C10 witness: the general dimension statement applied to the concrete
fragment, with the regex-match hypotheses discharged by `decide`. -/
theorem dimension_lookup_fragment_global_witness :
    handleDimensions ("<svg><rect width=\"5\" height=\"5\"/></svg>".data) =
      replaceFirstStr ("<svg><rect width=\"5\" height=\"5\"/></svg>".data) ("<svg".data)
        (("<svg viewBox=\"0 0 ".data) ++ stripNonDigits ("5".data) ++ (" ".data)
          ++ stripNonDigits ("5".data) ++ ("\"".data)) :=
  dimension_lookup_fragment_global.1 ("<svg><rect width=\"5\" height=\"5\"/></svg>".data)
    ("5".data) ("5".data) 11 9 21 10 (by decide) (by decide) (by decide)

/-- C7: `is_file_reference` (`validateSvgReference`) recognizes a token iff it
ends with `.svg` and (contains a path separator `/` or `\`, or matches the
strict single-segment filename pattern); concretely it accepts `icon.svg` and
`./assets/icon.svg` and rejects `description.svg_backup`. -/
theorem file_reference_predicate :
    (∀ w : List Char, (validateSvgReference w).isSome = true ↔
        (listEndsWith w (".svg".data) = true ∧
          (w.contains '/' = true ∨ w.contains '\\' = true ∨ singleSegSvg w = true)))
    ∧ (validateSvgReference ("icon.svg".data)).isSome = true
    ∧ (validateSvgReference ("./assets/icon.svg".data)).isSome = true
    ∧ (validateSvgReference ("description.svg_backup".data)).isSome = false := by
  refine ⟨fun w => ?_, by decide, by decide, by decide⟩
  by_cases h1 : listEndsWith w (".svg".data) = true <;>
    by_cases h2 : w.contains '/' = true <;>
    by_cases h3 : w.contains '\\' = true <;>
    by_cases h4 : singleSegSvg w = true <;>
    simp [validateSvgReference, h1, h2, h3, h4]
